import Mathlib

/-!
Verification of the doctor availability/unavailability resolution engine of
the med-connecter backend, shallowly embedded from
src/handlers/doctor.handler.js (getAvailability, updateAvailability,
addUnavailability, removeUnavailability).

Modelling conventions:
- A JavaScript Date value (millisecond timestamp) is modelled as a Nat
  millisecond count measured from the internal epoch 0000-03-01 shifted back
  by 400 years (a constant shift by a whole number of days, so day-number
  differences, comparisons and weekday arithmetic are unchanged); the shift
  keeps all arithmetic in Nat.  Dates are timezone-naive (UTC), matching the
  toISOString based comparisons in the handler.
- The string d.toISOString().slice(0, 10) is injective on midnight
  timestamps, so date-key equality of those strings is modelled as equality
  of day numbers dayOf t = t / msPerDay.
- HH:MM time-of-day strings are kept as Lean Strings; the JavaScript
  comparison slot.startTime < uSlot.endTime is lexicographic string
  comparison, modelled by String <.
- new Date(s) parsing is modelled for the ISO date-only production
  YYYY-MM-DD (the only date format the API contract admits); any other
  string parses to none (Invalid Date / NaN).
- HTTP 400 responses are modelled as structured errors (invalidRange for
  the availability range check, validation for mutation input checks);
  exceptions caught by the catch-all handlers (HTTP 500) are modelled as
  internal errors.
-/

/-- Milliseconds in one calendar day; the step of the date-range loop in
getAvailability. -/
def msPerDay : Nat := 86400000

/-- Day number of a millisecond timestamp: models the date key string
d.toISOString().slice(0, 10), which is injective on timestamps up to
day granularity. -/
def dayOf (t : Nat) : Nat := t / msPerDay

/-- Numeric value of a decimal digit character. -/
def digitVal (c : Char) : Nat := c.toNat - 48

/-- Gregorian leap-year test, as used by the calendar underlying
JavaScript Date. -/
def isLeap (y : Nat) : Bool := (y % 4 == 0 && y % 100 != 0) || y % 400 == 0

/-- Number of days in month m of year y (m between 1 and 12). -/
def daysInMonth (y m : Nat) : Nat :=
  if m == 2 then (if isLeap y then 29 else 28)
  else if m == 4 || m == 6 || m == 9 || m == 11 then 30
  else 31

/-- Day number of the civil date y-m-d counted from the internal epoch
(0000-03-01 shifted back 400 years).  Standard era-based civil-from-days
arithmetic; the 400-year shift keeps the computation in Nat for every
year from 0 on. -/
def civilDays (y m d : Nat) : Nat :=
  let y1 := y + 400
  let yAdj := if m ≤ 2 then y1 - 1 else y1
  let era := yAdj / 400
  let yoe := yAdj % 400
  let mp := if m > 2 then m - 3 else m + 9
  let doy := (153 * mp + 2) / 5 + (d - 1)
  let doe := yoe * 365 + yoe / 4 - yoe / 100 + doy
  era * 146097 + doe

/-- Parse a YYYY-MM-DD string to its day number; none models the
Invalid Date result of new Date(s) on a malformed string. -/
def parseDayNumber (s : String) : Option Nat :=
  match s.toList with
  | [y1, y2, y3, y4, c1, m1, m2, c2, d1, d2] =>
    if c1 == '-' && c2 == '-'
        && (y1.isDigit && y2.isDigit && y3.isDigit && y4.isDigit
            && m1.isDigit && m2.isDigit && d1.isDigit && d2.isDigit) then
      let y := ((digitVal y1 * 10 + digitVal y2) * 10 + digitVal y3) * 10 + digitVal y4
      let m := digitVal m1 * 10 + digitVal m2
      let d := digitVal d1 * 10 + digitVal d2
      if 1 ≤ m ∧ m ≤ 12 ∧ 1 ≤ d ∧ d ≤ daysInMonth y m then
        some (civilDays y m d)
      else none
    else none
  | _ => none

/-- Models new Date(s) for a date-only string: the millisecond timestamp of
UTC midnight of the parsed date, or none for Invalid Date. -/
def parseDate (s : String) : Option Nat := (parseDayNumber s).map (· * msPerDay)

/-- Models new Date(q) for an optional query/body field: an absent field is
undefined, which yields Invalid Date. -/
def parseOpt (s : Option String) : Option Nat :=
  match s with
  | none => none
  | some str => parseDate str

/-- JavaScript truthiness test on an optional string field: absent (undefined)
and the empty string are falsy. -/
def jsFalsy (s : Option String) : Bool :=
  match s with
  | none => true
  | some str => str == ""

/-- Lowercased long weekday name of a day number: models
d.toLocaleDateString with the long weekday option, lowercased.  The
internal epoch falls so that day numbers congruent to 1 mod 7 are
Thursdays (1970-01-01, civilDays 1970 1 1 = 865565, is a Thursday). -/
def weekdayName (n : Nat) : String :=
  match n % 7 with
  | 0 => "wednesday"
  | 1 => "thursday"
  | 2 => "friday"
  | 3 => "saturday"
  | 4 => "sunday"
  | 5 => "monday"
  | _ => "tuesday"

/-- A time-of-day interval with HH:MM endpoints (availabilitySchema slot /
unavailability slot in the Doctor model). -/
structure Slot where
  startTime : String
  endTime : String
deriving DecidableEq, Repr

/-- One recurring weekly availability rule (an element of
doctor.availability). -/
structure WeeklyRule where
  day : String
  slots : List Slot
deriving DecidableEq, Repr

/-- One dated unavailability exception (an element of
doctor.unavailability); date is a millisecond timestamp. -/
structure UnavailEntry where
  date : Nat
  slots : List Slot
  reason : String
deriving DecidableEq, Repr

/-- The attributes of a Doctor document the availability engine reads and
writes; id and name model the identity metadata attached to multi-doctor
results. -/
structure Doctor where
  id : Nat
  name : String
  availability : List WeeklyRule
  unavailability : List UnavailEntry
deriving DecidableEq, Repr

/-- One emitted per-day availability record; date is a day number (models
the YYYY-MM-DD dateStr) and the doctor metadata is present exactly when the
handler serves the multi-doctor query path. -/
structure DayAvailability where
  date : Nat
  slots : List Slot
  doctorId : Option Nat
  doctorName : Option String
deriving DecidableEq, Repr

/-- Structured model of the handler error responses: invalidRange and
validation are HTTP 400 rejections, notFound is 404, internal is the
catch-all 500. -/
inductive HandlerError where
  | invalidRange : String → HandlerError
  | validation : String → HandlerError
  | notFound : String → HandlerError
  | internal : String → HandlerError
deriving DecidableEq, Repr

/-- The open-interval overlap test of getAvailability line 682:
slot.startTime < uSlot.endTime AND slot.endTime > uSlot.startTime,
on HH:MM strings compared lexicographically.  The order on String is by
definition the lexicographic order on the underlying character lists, so
the comparison is phrased on the data to use the structurally recursive
decision procedure of the list order. -/
def slotOverlaps (slot uSlot : Slot) : Bool :=
  decide (slot.startTime.data < uSlot.endTime.data)
    && decide (uSlot.startTime.data < slot.endTime.data)

/-- The subtraction step of getAvailability lines 681-683: keep exactly the
base slots that overlap no exception slot (whole-slot removal). -/
def subtractSlots (base exc : List Slot) : List Slot :=
  base.filter (fun slot => !(exc.any (fun uSlot => slotOverlaps slot uSlot)))

/-- One iteration of the per-day loop of getAvailability lines 674-697 for
timestamp d: look up the first weekly rule matching the weekday, the first
unavailability entry matching the date, subtract, and emit the day record
(with doctor metadata exactly when includeMeta, i.e. the multi-doctor
path). -/
def resolveDay (doctor : Doctor) (includeMeta : Bool) (d : Nat) : DayAvailability :=
  let dateKey := dayOf d
  let weekday := weekdayName dateKey
  let base :=
    match doctor.availability.find? (fun a => a.day == weekday) with
    | some recurring => recurring.slots
    | none => []
  let slots :=
    match doctor.unavailability.find? (fun u => dayOf u.date == dateKey) with
    | some unavail => subtractSlots base unavail.slots
    | none => base
  { date := dateKey
    slots := slots
    doctorId := if includeMeta then some doctor.id else none
    doctorName := if includeMeta then some doctor.name else none }

/-- The doubly nested loop of getAvailability lines 669-700: for each doctor
in order, one record per calendar day from s to e inclusive (the loop steps
d by msPerDay while d is at most e, hence (e - s) / msPerDay + 1
iterations), concatenated doctor-major. -/
def availResult (doctors : List Doctor) (includeMeta : Bool) (s e : Nat) :
    List DayAvailability :=
  doctors.flatMap fun doctor =>
    (List.range ((e - s) / msPerDay + 1)).map fun i =>
      resolveDay doctor includeMeta (s + i * msPerDay)

/-- The getAvailability handler (lines 624-707) after the doctor fetch:
reject missing dates, reject an unparseable or inverted range, otherwise
resolve the per-day availability of every doctor.  includeMeta models
whether the request came without a doctorId (multi-doctor path). -/
def getAvailability (doctors : List Doctor) (includeMeta : Bool)
    (startDate endDate : Option String) :
    Except HandlerError (List DayAvailability) :=
  if jsFalsy startDate || jsFalsy endDate then
    .error (.invalidRange "startDate and endDate are required")
  else
    match parseOpt startDate, parseOpt endDate with
    | some s, some e =>
      if s > e then .error (.invalidRange "Invalid date range")
      else .ok (availResult doctors includeMeta s e)
    | _, _ => .error (.invalidRange "Invalid date range")

/-- The updateAvailability handler core (lines 722-723): wholesale replace
of doctor.availability; nothing else on the document is touched. -/
def updateAvailability (doctor : Doctor) (rules : List WeeklyRule) : Doctor :=
  { doctor with availability := rules }

/-- The unavailability array produced by a successful addUnavailability
(lines 815-817): drop every entry whose normalized date equals the new
date's, then append the new entry. -/
def upsertEntry (doctor : Doctor) (t : Nat) (slots : List Slot) (reason : String) :
    Doctor :=
  { doctor with
    unavailability :=
      doctor.unavailability.filter (fun u => !(dayOf u.date == dayOf t))
        ++ [{ date := t, slots := slots, reason := reason }] }

/-- The addUnavailability handler (lines 803-824) after the doctor fetch:
reject a falsy date or a missing/non-array/empty slots field with a 400;
a truthy but unparseable date makes toISOString or the document save throw,
caught as a 500; otherwise replace-then-append the dated entry.  slots is
an Option to model the Array.isArray check (none is a missing or non-array
body field). -/
def addUnavailability (doctor : Doctor) (date : Option String)
    (slots : Option (List Slot)) (reason : String) :
    Except HandlerError Doctor :=
  match slots with
  | none => .error (.validation "date and slots are required")
  | some sl =>
    if jsFalsy date || sl.isEmpty then
      .error (.validation "date and slots are required")
    else
      match date with
      | none => .error (.validation "date and slots are required")
      | some ds =>
        match parseDate ds with
        | none => .error (.internal "Failed to add unavailability")
        | some t => .ok (upsertEntry doctor t sl reason)

/-- The removeUnavailability handler (lines 827-845) after the doctor
fetch: reject a falsy date with a 400; filter out every entry whose
normalized date equals the given date's.  With a truthy unparseable date
the per-element toISOString call throws (500) unless the array is empty,
in which case the filter never runs its callback and the save succeeds
unchanged. -/
def removeUnavailability (doctor : Doctor) (date : Option String) :
    Except HandlerError Doctor :=
  if jsFalsy date then .error (.validation "date is required")
  else
    match date with
    | none => .error (.validation "date is required")
    | some ds =>
      match parseDate ds with
      | some t =>
        .ok { doctor with
              unavailability :=
                doctor.unavailability.filter (fun u => !(dayOf u.date == dayOf t)) }
      | none =>
        if doctor.unavailability.isEmpty then .ok doctor
        else .error (.internal "Failed to remove unavailability")

/-- Post-state of the stored doctor document after an addUnavailability
request: the handler saves the mutated document on success and leaves the
store untouched on a rejected request. -/
def addUnavailabilityPost (doctor : Doctor) (date : Option String)
    (slots : Option (List Slot)) (reason : String) : Doctor :=
  match addUnavailability doctor date slots reason with
  | .ok d => d
  | .error _ => doctor

/-- Post-state of the stored doctor document after a removeUnavailability
request. -/
def removeUnavailabilityPost (doctor : Doctor) (date : Option String) : Doctor :=
  match removeUnavailability doctor date with
  | .ok d => d
  | .error _ => doctor

/-! ## Helper lemmas -/

/-- The order on String is by definition the lexicographic order on the
character lists. -/
theorem string_lt_iff_data (a b : String) : a < b ↔ a.data < b.data :=
  String.lt_iff_toList_lt

/-- The overlap test evaluates to true exactly on the open-interval overlap
condition of the spec, under lexicographic HH:MM comparison. -/
theorem slotOverlaps_iff (b e : Slot) :
    slotOverlaps b e = true ↔ b.startTime < e.endTime ∧ e.startTime < b.endTime := by
  simp only [slotOverlaps, Bool.and_eq_true, decide_eq_true_eq, string_lt_iff_data]

/-- The overlap test evaluates to false exactly when the slot does not
overlap the exception slot. -/
theorem slotOverlaps_false_iff (b e : Slot) :
    slotOverlaps b e = false ↔ ¬(b.startTime < e.endTime ∧ e.startTime < b.endTime) := by
  constructor
  · intro h hc
    rw [← slotOverlaps_iff] at hc
    rw [h] at hc
    exact Bool.false_ne_true hc
  · intro h
    cases hov : slotOverlaps b e with
    | false => rfl
    | true => exact absurd ((slotOverlaps_iff b e).mp hov) h

/-- Every parsed timestamp is a whole number of days in milliseconds. -/
theorem parseDate_dvd (s : String) (t : Nat) (h : parseDate s = some t) :
    msPerDay ∣ t := by
  unfold parseDate at h
  cases hp : parseDayNumber s with
  | none => rw [hp] at h; exact absurd h (by simp)
  | some k =>
    rw [hp] at h
    have h2 : some (k * msPerDay) = some t := h
    have h3 : k * msPerDay = t := by injection h2
    exact ⟨k, by rw [← h3, Nat.mul_comm]⟩

/-- The empty string is not a parseable date. -/
theorem parseDate_empty : parseDate "" = none := rfl

/-- A parseable date string is not falsy. -/
theorem jsFalsy_of_parse (s : String) (t : Nat) (h : parseDate s = some t) :
    jsFalsy (some s) = false := by
  cases he : (s == "") with
  | false => simp [jsFalsy, he]
  | true =>
    exfalso
    have : s = "" := by simpa using he
    rw [this, parseDate_empty] at h
    exact absurd h (by simp)

/-- find? returns the first matching element: with no match before x and x
matching, the search over the concatenation yields x, whatever follows. -/
theorem find?_first {α : Type} (p : α → Bool) (pre post : List α) (x : α)
    (hx : p x = true) (hpre : ∀ a ∈ pre, p a = false) :
    (pre ++ x :: post).find? p = some x := by
  rw [List.find?_append]
  have hnone : pre.find? p = none := by
    rw [List.find?_eq_none]
    intro a ha
    rw [hpre a ha]
    exact Bool.false_ne_true
  rw [hnone, Option.none_or]
  exact List.find?_cons_of_pos post hx

/-! ## Concrete witness data -/

/-- Witness timestamp: UTC midnight of Monday 2024-06-10. -/
def wT : Nat := civilDays 2024 6 10 * msPerDay

/-- Witness base slot 09:00-10:00 (touches the exception boundary). -/
def wBase : Slot := { startTime := "09:00", endTime := "10:00" }

/-- Witness base slot 10:30-11:30 (overlaps the exception). -/
def wBase2 : Slot := { startTime := "10:30", endTime := "11:30" }

/-- Witness exception slot 10:00-11:00. -/
def wExcSlot : Slot := { startTime := "10:00", endTime := "11:00" }

/-- Witness weekly rule for Mondays. -/
def wRule : WeeklyRule := { day := "monday", slots := [wBase, wBase2] }

/-- Witness unavailability exception dated 2024-06-10. -/
def wExc : UnavailEntry := { date := wT, slots := [wExcSlot], reason := "leave" }

/-- Witness doctor with one weekly rule and one exception. -/
def wDoc : Doctor :=
  { id := 1, name := "Ada", availability := [wRule], unavailability := [wExc] }

/-! ## Claims -/

/-- C1: for the matching weekly rule r and the day's matching unavailability
exception u, resolveDay keeps a base slot b in the day's output exactly when
no exception slot e satisfies b.startTime < e.endTime and b.endTime >
e.startTime, comparing HH:MM strings lexicographically; the output is a
sublist of the rule's slots, so an overlapping base slot is removed whole
(never clipped or split) and a slot that merely touches an exception
boundary is kept in full. -/
theorem claim_C1_whole_slot_subtraction
    (doc : Doctor) (m : Bool) (d : Nat) (r : WeeklyRule) (u : UnavailEntry) (b : Slot)
    (hr : doc.availability.find? (fun a => a.day == weekdayName (dayOf d)) = some r)
    (hu : doc.unavailability.find? (fun v => dayOf v.date == dayOf d) = some u) :
    (b ∈ (resolveDay doc m d).slots ↔
      b ∈ r.slots ∧ ∀ e ∈ u.slots,
        ¬(b.startTime < e.endTime ∧ e.startTime < b.endTime))
    ∧ (resolveDay doc m d).slots.Sublist r.slots := by
  have hslots : (resolveDay doc m d).slots = subtractSlots r.slots u.slots := by
    simp only [resolveDay, hr, hu]
  constructor
  · rw [hslots]
    unfold subtractSlots
    rw [List.mem_filter]
    apply and_congr_right
    intro _
    rw [Bool.not_eq_true', List.any_eq_false]
    constructor
    · intro h e he
      exact (not_congr (slotOverlaps_iff b e)).mp (h e he)
    · intro h e he
      exact (not_congr (slotOverlaps_iff b e)).mpr (h e he)
  · rw [hslots]
    exact List.filter_sublist _

/-- Witness for C1 at a concrete doctor: Monday 2024-06-10 with base slots
09:00-10:00 and 10:30-11:30, exception slot 10:00-11:00; the hypotheses are
discharged by evaluation. -/
theorem claim_C1_witness :
    (wDoc.availability.find? (fun a => a.day == weekdayName (dayOf wT)) = some wRule
      ∧ wDoc.unavailability.find? (fun v => dayOf v.date == dayOf wT) = some wExc)
    ∧ ((wBase ∈ (resolveDay wDoc false wT).slots ↔
          wBase ∈ wRule.slots ∧ ∀ e ∈ wExc.slots,
            ¬(wBase.startTime < e.endTime ∧ e.startTime < wBase.endTime))
        ∧ (resolveDay wDoc false wT).slots.Sublist wRule.slots) :=
  ⟨⟨by decide, by decide⟩,
    claim_C1_whole_slot_subtraction wDoc false wT wRule wExc wBase
      (by decide) (by decide)⟩

/-- A successful addUnavailability call: with a parseable date and non-empty
slots the handler returns the replace-then-append update. -/
theorem addUnavailability_ok (doc : Doctor) (ds : String) (sl : List Slot)
    (rsn : String) (t : Nat) (hp : parseDate ds = some t) (h1 : sl ≠ []) :
    addUnavailability doc (some ds) (some sl) rsn = .ok (upsertEntry doc t sl rsn) := by
  unfold addUnavailability
  have hie : sl.isEmpty = false := by
    cases sl with
    | nil => exact absurd rfl h1
    | cons a as => rfl
  simp [jsFalsy_of_parse ds t hp, hie, hp]

/-- After an upsert, the entries whose normalized date equals the written
date are exactly the one new entry. -/
theorem upsert_filter_eq (doc : Doctor) (t : Nat) (sl : List Slot) (rsn : String) :
    (upsertEntry doc t sl rsn).unavailability.filter (fun u => dayOf u.date == dayOf t)
      = [{ date := t, slots := sl, reason := rsn }] := by
  unfold upsertEntry
  rw [List.filter_append, List.filter_filter]
  have hz : (doc.unavailability.filter
      (fun a => (dayOf a.date == dayOf t) && !(dayOf a.date == dayOf t))) = [] := by
    simp [Bool.and_not_self]
  rw [hz]
  simp [List.filter]

/-- C2: with a valid date and non-empty slots, addUnavailability succeeds and
leaves exactly one unavailability entry whose normalized date equals the
written date, carrying this call's slots; a second call for the same date
with different slots again leaves exactly one entry for the date, now with
the second call's slots (replace-on-write, preserving the
at-most-one-exception-per-date invariant). -/
theorem claim_C2_upsert_replace_on_write
    (doc : Doctor) (ds : String) (sl sl2 : List Slot) (rsn rsn2 : String) (t : Nat)
    (hp : parseDate ds = some t) (h1 : sl ≠ []) (h2 : sl2 ≠ []) :
    addUnavailability doc (some ds) (some sl) rsn = .ok (upsertEntry doc t sl rsn)
    ∧ (upsertEntry doc t sl rsn).unavailability.filter
        (fun u => dayOf u.date == dayOf t) = [{ date := t, slots := sl, reason := rsn }]
    ∧ addUnavailability (upsertEntry doc t sl rsn) (some ds) (some sl2) rsn2
        = .ok (upsertEntry (upsertEntry doc t sl rsn) t sl2 rsn2)
    ∧ (upsertEntry (upsertEntry doc t sl rsn) t sl2 rsn2).unavailability.filter
        (fun u => dayOf u.date == dayOf t)
        = [{ date := t, slots := sl2, reason := rsn2 }] :=
  ⟨addUnavailability_ok doc ds sl rsn t hp h1,
    upsert_filter_eq doc t sl rsn,
    addUnavailability_ok (upsertEntry doc t sl rsn) ds sl2 rsn2 t hp h2,
    upsert_filter_eq (upsertEntry doc t sl rsn) t sl2 rsn2⟩

/-- Witness for C2: upserting 2024-06-10 twice on the concrete doctor, first
with the 10:00-11:00 slot, then with the 10:30-11:30 slot. -/
theorem claim_C2_witness :
    parseDate "2024-06-10" = some wT
    ∧ (addUnavailability wDoc (some "2024-06-10") (some [wExcSlot]) "a"
          = .ok (upsertEntry wDoc wT [wExcSlot] "a")
        ∧ (upsertEntry wDoc wT [wExcSlot] "a").unavailability.filter
            (fun u => dayOf u.date == dayOf wT)
            = [{ date := wT, slots := [wExcSlot], reason := "a" }]
        ∧ addUnavailability (upsertEntry wDoc wT [wExcSlot] "a")
            (some "2024-06-10") (some [wBase2]) "b"
          = .ok (upsertEntry (upsertEntry wDoc wT [wExcSlot] "a") wT [wBase2] "b")
        ∧ (upsertEntry (upsertEntry wDoc wT [wExcSlot] "a") wT [wBase2] "b").unavailability.filter
            (fun u => dayOf u.date == dayOf wT)
            = [{ date := wT, slots := [wBase2], reason := "b" }]) :=
  ⟨by decide,
    claim_C2_upsert_replace_on_write wDoc "2024-06-10" [wExcSlot] [wBase2] "a" "b" wT
      (by decide) (by decide) (by decide)⟩

/-- A parsed optional field is not falsy. -/
theorem jsFalsy_of_parseOpt (sd : Option String) (s : Nat) (h : parseOpt sd = some s) :
    jsFalsy sd = false := by
  cases sd with
  | none => simp [parseOpt] at h
  | some str =>
    simp only [parseOpt] at h
    exact jsFalsy_of_parse str s h

/-- getAvailability succeeds on a parseable, non-inverted range. -/
theorem getAvailability_ok (doctors : List Doctor) (m : Bool) (sd ed : Option String)
    (s e : Nat) (hs : parseOpt sd = some s) (he : parseOpt ed = some e) (hle : s ≤ e) :
    getAvailability doctors m sd ed = .ok (availResult doctors m s e) := by
  unfold getAvailability
  rw [jsFalsy_of_parseOpt sd s hs, jsFalsy_of_parseOpt ed e he, hs, he]
  have hng : ¬ (s > e) := by omega
  simp [hng]

/-- getAvailability rejects the range when the start date does not parse. -/
theorem getAvailability_error_left (doctors : List Doctor) (m : Bool)
    (sd ed : Option String) (h : parseOpt sd = none) :
    ∃ msg, getAvailability doctors m sd ed = .error (.invalidRange msg) := by
  unfold getAvailability
  cases hf : (jsFalsy sd || jsFalsy ed) with
  | true => exact ⟨"startDate and endDate are required", by simp [hf]⟩
  | false =>
    refine ⟨"Invalid date range", ?_⟩
    rw [h]
    cases parseOpt ed <;> simp [hf]

/-- getAvailability rejects the range when the end date does not parse. -/
theorem getAvailability_error_right (doctors : List Doctor) (m : Bool)
    (sd ed : Option String) (h : parseOpt ed = none) :
    ∃ msg, getAvailability doctors m sd ed = .error (.invalidRange msg) := by
  unfold getAvailability
  cases hf : (jsFalsy sd || jsFalsy ed) with
  | true => exact ⟨"startDate and endDate are required", by simp [hf]⟩
  | false =>
    refine ⟨"Invalid date range", ?_⟩
    rw [h]
    cases parseOpt sd <;> simp [hf]

/-- getAvailability rejects an inverted range. -/
theorem getAvailability_error_inverted (doctors : List Doctor) (m : Bool)
    (sd ed : Option String) (s e : Nat)
    (hs : parseOpt sd = some s) (he : parseOpt ed = some e) (hlt : e < s) :
    getAvailability doctors m sd ed = .error (.invalidRange "Invalid date range") := by
  unfold getAvailability
  rw [jsFalsy_of_parseOpt sd s hs, jsFalsy_of_parseOpt ed e he, hs, he]
  simp [hlt]

/-- C3: getAvailability fails with an invalid-range rejection exactly when
the start date is unparseable, the end date is unparseable, or the parsed
start is after the parsed end; and on every parseable non-inverted range
the check passes and the resolved availability is returned. -/
theorem claim_C3_invalid_range
    (doctors : List Doctor) (m : Bool) (sd ed : Option String) :
    ((∃ msg, getAvailability doctors m sd ed = .error (.invalidRange msg)) ↔
      parseOpt sd = none ∨ parseOpt ed = none
        ∨ ∃ s e, parseOpt sd = some s ∧ parseOpt ed = some e ∧ e < s)
    ∧ (∀ s e, parseOpt sd = some s → parseOpt ed = some e → s ≤ e →
        getAvailability doctors m sd ed = .ok (availResult doctors m s e)) := by
  constructor
  · constructor
    · intro hmsg
      cases hsd : parseOpt sd with
      | none => exact Or.inl rfl
      | some s =>
        cases hed : parseOpt ed with
        | none => exact Or.inr (Or.inl rfl)
        | some e =>
          rcases Nat.lt_or_ge e s with hlt | hge
          · exact Or.inr (Or.inr ⟨s, e, rfl, rfl, hlt⟩)
          · exfalso
            obtain ⟨msg, hm⟩ := hmsg
            rw [getAvailability_ok doctors m sd ed s e hsd hed hge] at hm
            exact Except.noConfusion hm
    · intro h
      rcases h with h | h | ⟨s, e, hs, he, hlt⟩
      · exact getAvailability_error_left doctors m sd ed h
      · exact getAvailability_error_right doctors m sd ed h
      · exact ⟨_, getAvailability_error_inverted doctors m sd ed s e hs he hlt⟩
  · intro s e hs he hle
    exact getAvailability_ok doctors m sd ed s e hs he hle

/-- Witness timestamp: UTC midnight of Tuesday 2024-06-11. -/
def wT2 : Nat := civilDays 2024 6 11 * msPerDay

/-- Witness for C3: the concrete range 2024-06-10 to 2024-06-11 parses,
is not inverted, and the check passes with the resolved result. -/
theorem claim_C3_witness :
    getAvailability [wDoc] false (some "2024-06-10") (some "2024-06-11")
      = .ok (availResult [wDoc] false wT wT2) :=
  (claim_C3_invalid_range [wDoc] false (some "2024-06-10") (some "2024-06-11")).2
    wT wT2 (by decide) (by decide) (by decide)

/-- C4: on a day whose date matches no unavailability entry, the resolved
slot list is the matching weekly rule's slot list itself: same elements,
same count, same order, with no sorting, deduplication or merging. -/
theorem claim_C4_no_exception_exact_slots
    (doc : Doctor) (m : Bool) (d : Nat) (r : WeeklyRule)
    (hr : doc.availability.find? (fun a => a.day == weekdayName (dayOf d)) = some r)
    (hu : ∀ u ∈ doc.unavailability, dayOf u.date ≠ dayOf d) :
    (resolveDay doc m d).slots = r.slots := by
  have hnone : doc.unavailability.find? (fun u => dayOf u.date == dayOf d) = none := by
    rw [List.find?_eq_none]
    intro u hu'
    simp only [beq_iff_eq]
    exact hu u hu'
  simp [resolveDay, hr, hnone]

/-- Witness timestamp: UTC midnight of Monday 2024-06-17 (no exception on
this date for the witness doctor). -/
def wT3 : Nat := civilDays 2024 6 17 * msPerDay

/-- Witness for C4: resolving the witness doctor on 2024-06-17, a Monday
with no exception, returns the weekly rule's slots unchanged. -/
theorem claim_C4_witness :
    (wDoc.availability.find? (fun a => a.day == weekdayName (dayOf wT3)) = some wRule
      ∧ (∀ u ∈ wDoc.unavailability, dayOf u.date ≠ dayOf wT3))
    ∧ (resolveDay wDoc false wT3).slots = wRule.slots :=
  ⟨⟨by decide, by decide⟩,
    claim_C4_no_exception_exact_slots wDoc false wT3 wRule (by decide) (by decide)⟩

/-- C5: on a day whose weekday matches no weekly rule, the resolved entry
carries the day's date and an empty slot list, whether or not an
unavailability exception exists for the date. -/
theorem claim_C5_no_rule_empty_slots
    (doc : Doctor) (m : Bool) (d : Nat)
    (hr : ∀ a ∈ doc.availability, a.day ≠ weekdayName (dayOf d)) :
    (resolveDay doc m d).slots = [] ∧ (resolveDay doc m d).date = dayOf d := by
  have hnone : doc.availability.find? (fun a => a.day == weekdayName (dayOf d)) = none := by
    rw [List.find?_eq_none]
    intro a ha
    simp only [beq_iff_eq]
    exact hr a ha
  constructor
  · cases hu : doc.unavailability.find? (fun u => dayOf u.date == dayOf d) with
    | none => simp [resolveDay, hnone, hu]
    | some u => simp [resolveDay, hnone, hu, subtractSlots]
  · simp [resolveDay]

/-- Witness unavailability exception dated Tuesday 2024-06-11. -/
def wExc2 : UnavailEntry := { date := wT2, slots := [wExcSlot], reason := "x" }

/-- Witness doctor with a Monday rule and an exception on a Tuesday, the
weekday without any rule. -/
def wDoc2 : Doctor :=
  { id := 2, name := "Bo", availability := [wRule], unavailability := [wExc2] }

/-- Witness for C5: 2024-06-11 is a Tuesday, the witness doctor has no
Tuesday rule but does have an exception for that date, and the resolved
entry still has an empty slot list. -/
theorem claim_C5_witness :
    (∀ a ∈ wDoc2.availability, a.day ≠ weekdayName (dayOf wT2))
    ∧ ((resolveDay wDoc2 false wT2).slots = []
        ∧ (resolveDay wDoc2 false wT2).date = dayOf wT2) :=
  ⟨by decide, claim_C5_no_rule_empty_slots wDoc2 false wT2 (by decide)⟩

/-- A parsed optional field is a whole number of days in milliseconds. -/
theorem parseOpt_dvd (sd : Option String) (s : Nat) (h : parseOpt sd = some s) :
    msPerDay ∣ s := by
  cases sd with
  | none => simp [parseOpt] at h
  | some str =>
    simp only [parseOpt] at h
    exact parseDate_dvd str s h

/-- The resolved sequence has one record per doctor per day in range. -/
theorem availResult_length (doctors : List Doctor) (m : Bool) (s e : Nat) :
    (availResult doctors m s e).length = doctors.length * ((e - s) / msPerDay + 1) := by
  induction doctors with
  | nil => simp [availResult]
  | cons doc rest ih =>
    unfold availResult at ih ⊢
    rw [List.flatMap_cons, List.length_append, ih]
    simp only [List.length_map, List.length_range, List.length_cons]
    ring

/-- The date of a resolved day record is the day number of its timestamp. -/
theorem resolveDay_date (doc : Doctor) (m : Bool) (d : Nat) :
    (resolveDay doc m d).date = dayOf d := rfl

/-- Within one doctor's block the emitted dates are strictly ascending. -/
theorem availResult_dates_pairwise (doctor : Doctor) (m : Bool) (s n : Nat)
    (hdvd : msPerDay ∣ s) :
    (((List.range n).map (fun i => resolveDay doctor m (s + i * msPerDay))).map
        DayAvailability.date).Pairwise (· < ·) := by
  obtain ⟨k, hk⟩ := hdvd
  rw [List.map_map]
  have hfun : (DayAvailability.date ∘ fun i => resolveDay doctor m (s + i * msPerDay))
      = fun i => k + i := by
    funext i
    simp only [Function.comp_apply, resolveDay_date]
    unfold dayOf
    rw [hk, show msPerDay * k + i * msPerDay = (k + i) * msPerDay by ring]
    exact Nat.mul_div_cancel (k + i) (by norm_num [msPerDay])
  rw [hfun]
  refine List.Pairwise.map _ ?_ (List.pairwise_lt_range n)
  intro a b hab
  omega

/-- C6: on a parseable non-inverted range the handler returns exactly the
doctor-major concatenation of per-day records, one record per doctor per
calendar day from the start to the end inclusive (so the length is the
number of doctors times the number of days), with dates strictly ascending
inside each doctor's block, no cross-doctor sorting or merging, and the
empty doctor sequence yields the empty result. -/
theorem claim_C6_result_shape
    (doctors : List Doctor) (m : Bool) (sd ed : Option String) (s e : Nat)
    (hs : parseOpt sd = some s) (he : parseOpt ed = some e) (hle : s ≤ e) :
    getAvailability doctors m sd ed = .ok (availResult doctors m s e)
    ∧ availResult doctors m s e
        = doctors.flatMap (fun doctor =>
            (List.range ((e - s) / msPerDay + 1)).map
              (fun i => resolveDay doctor m (s + i * msPerDay)))
    ∧ (availResult doctors m s e).length
        = doctors.length * ((e - s) / msPerDay + 1)
    ∧ (∀ doctor : Doctor,
        (((List.range ((e - s) / msPerDay + 1)).map
            (fun i => resolveDay doctor m (s + i * msPerDay))).map
          DayAvailability.date).Pairwise (· < ·))
    ∧ (doctors = [] → availResult doctors m s e = []) := by
  refine ⟨getAvailability_ok doctors m sd ed s e hs he hle, rfl,
    availResult_length doctors m s e,
    fun doctor => availResult_dates_pairwise doctor m s _ (parseOpt_dvd sd s hs),
    ?_⟩
  intro h
  subst h
  rfl

/-- Witness for C6: resolving one doctor over 2024-06-10..2024-06-11 gives
the doctor-major per-day concatenation with two strictly ascending dates. -/
theorem claim_C6_witness :
    (parseOpt (some "2024-06-10") = some wT
      ∧ parseOpt (some "2024-06-11") = some wT2 ∧ wT ≤ wT2)
    ∧ (getAvailability [wDoc] false (some "2024-06-10") (some "2024-06-11")
          = .ok (availResult [wDoc] false wT wT2)
        ∧ availResult [wDoc] false wT wT2
            = [wDoc].flatMap (fun doctor =>
                (List.range ((wT2 - wT) / msPerDay + 1)).map
                  (fun i => resolveDay doctor false (wT + i * msPerDay)))
        ∧ (availResult [wDoc] false wT wT2).length
            = [wDoc].length * ((wT2 - wT) / msPerDay + 1)
        ∧ (∀ doctor : Doctor,
            (((List.range ((wT2 - wT) / msPerDay + 1)).map
                (fun i => resolveDay doctor false (wT + i * msPerDay))).map
              DayAvailability.date).Pairwise (· < ·))
        ∧ ([wDoc] = ([] : List Doctor) → availResult [wDoc] false wT wT2 = [])) :=
  ⟨⟨by decide, by decide, by decide⟩,
    claim_C6_result_shape [wDoc] false (some "2024-06-10") (some "2024-06-11") wT wT2
      (by decide) (by decide) (by decide)⟩

/-- With a truthy but unparseable date and non-empty slots, the
addUnavailability handler throws while normalizing the date and the
catch-all turns it into an internal error. -/
theorem addUnavailability_parse_fail (doc : Doctor) (ds : String) (a : Slot)
    (as : List Slot) (rsn : String)
    (hf : jsFalsy (some ds) = false) (hp : parseDate ds = none) :
    addUnavailability doc (some ds) (some (a :: as)) rsn
      = .error (.internal "Failed to add unavailability") := by
  unfold addUnavailability
  simp [hf, hp]

/-- addUnavailability produces a validation rejection exactly when the date
field is falsy or the slots field is missing, not an array, or empty. -/
theorem addUnavailability_validation_iff
    (doc : Doctor) (date : Option String) (slots : Option (List Slot)) (rsn : String) :
    (∃ msg, addUnavailability doc date slots rsn = .error (.validation msg)) ↔
      jsFalsy date = true ∨ slots = none ∨ slots = some [] := by
  cases slots with
  | none =>
    constructor
    · intro _
      exact Or.inr (Or.inl rfl)
    · intro _
      exact ⟨"date and slots are required", rfl⟩
  | some sl =>
    cases hf : jsFalsy date with
    | true =>
      constructor
      · intro _
        exact Or.inl rfl
      · intro _
        refine ⟨"date and slots are required", ?_⟩
        unfold addUnavailability
        rw [hf]
        rfl
    | false =>
      cases sl with
      | nil =>
        constructor
        · intro _
          exact Or.inr (Or.inr rfl)
        · intro _
          refine ⟨"date and slots are required", ?_⟩
          unfold addUnavailability
          rw [hf]
          rfl
      | cons a as =>
        have hds : ∃ ds, date = some ds := by
          cases date with
          | none => simp [jsFalsy] at hf
          | some ds => exact ⟨ds, rfl⟩
        obtain ⟨ds, rfl⟩ := hds
        constructor
        · intro hex
          exfalso
          obtain ⟨msg, hm⟩ := hex
          cases hp : parseDate ds with
          | none =>
            rw [addUnavailability_parse_fail doc ds a as rsn hf hp] at hm
            exact HandlerError.noConfusion (Except.error.inj hm)
          | some t =>
            rw [addUnavailability_ok doc ds (a :: as) rsn t hp (by simp)] at hm
            exact Except.noConfusion hm
        · intro hc
          exfalso
          rcases hc with hc | hc | hc
          · simp [hf] at hc
          · exact Option.noConfusion hc
          · have hn : (a :: as) = ([] : List Slot) := Option.some.inj hc
            exact List.noConfusion hn

/-- C7: addUnavailability fails with a validation rejection exactly when the
date field is missing (falsy) or the slots field is missing, not an array,
or an empty array; and under any of those conditions the stored doctor
document, in particular its unavailability array, is left unchanged. -/
theorem claim_C7_validation
    (doc : Doctor) (date : Option String) (slots : Option (List Slot)) (rsn : String) :
    ((∃ msg, addUnavailability doc date slots rsn = .error (.validation msg)) ↔
      jsFalsy date = true ∨ slots = none ∨ slots = some [])
    ∧ ((jsFalsy date = true ∨ slots = none ∨ slots = some []) →
        addUnavailabilityPost doc date slots rsn = doc) := by
  refine ⟨addUnavailability_validation_iff doc date slots rsn, ?_⟩
  intro hc
  obtain ⟨msg, hm⟩ := (addUnavailability_validation_iff doc date slots rsn).mpr hc
  unfold addUnavailabilityPost
  rw [hm]

/-- Witness for C7: a request with no date and a non-empty slots array is
rejected and the document is unchanged. -/
theorem claim_C7_witness :
    (jsFalsy (none : Option String) = true
      ∨ (some [wBase] : Option (List Slot)) = none
      ∨ (some [wBase] : Option (List Slot)) = some [])
    ∧ addUnavailabilityPost wDoc none (some [wBase]) "r" = wDoc :=
  ⟨Or.inl (by decide),
    (claim_C7_validation wDoc none (some [wBase]) "r").2 (Or.inl (by decide))⟩

/-- C8: removing unavailability for a valid date that matches no stored
entry succeeds and returns the document unchanged, same entries in the same
order: an idempotent no-op. -/
theorem claim_C8_remove_noop
    (doc : Doctor) (ds : String) (t : Nat)
    (hp : parseDate ds = some t)
    (hnone : ∀ u ∈ doc.unavailability, dayOf u.date ≠ dayOf t) :
    removeUnavailability doc (some ds) = .ok doc := by
  unfold removeUnavailability
  rw [jsFalsy_of_parse ds t hp]
  have hkeep : doc.unavailability.filter (fun u => !(dayOf u.date == dayOf t))
      = doc.unavailability := by
    rw [List.filter_eq_self]
    intro u hu
    rw [Bool.not_eq_true', beq_eq_false_iff_ne]
    exact hnone u hu
  simp [hp, hkeep]

/-- Witness for C8: removing 2024-06-11 from the witness doctor, whose only
exception is dated 2024-06-10, returns the document unchanged. -/
theorem claim_C8_witness :
    (parseDate "2024-06-11" = some wT2
      ∧ (∀ u ∈ wDoc.unavailability, dayOf u.date ≠ dayOf wT2))
    ∧ removeUnavailability wDoc (some "2024-06-11") = .ok wDoc :=
  ⟨⟨by decide, by decide⟩,
    claim_C8_remove_noop wDoc "2024-06-11" wT2 (by decide) (by decide)⟩

/-- C9: the two duplicate situations independently.  First conjunct: when r
is the first weekly rule matching the day's weekday in array order, the
resolved record equals that of the same doctor holding only r, whatever
rules (matching duplicates included) precede without matching or follow, and
with no assumption on the unavailability array.  Second conjunct: when u is
the first unavailability entry matching the day's date, the resolved record
equals that of the same doctor holding only u, with no assumption on the
availability array.  Later duplicates are thus ignored in both arrays. -/
theorem claim_C9_first_match_wins
    (doc : Doctor) (m : Bool) (d : Nat) :
    (∀ (p1 s1 : List WeeklyRule) (r : WeeklyRule),
      doc.availability = p1 ++ r :: s1 →
      r.day = weekdayName (dayOf d) →
      (∀ a ∈ p1, a.day ≠ weekdayName (dayOf d)) →
      resolveDay doc m d = resolveDay { doc with availability := [r] } m d)
    ∧ (∀ (p2 s2 : List UnavailEntry) (u : UnavailEntry),
      doc.unavailability = p2 ++ u :: s2 →
      dayOf u.date = dayOf d →
      (∀ v ∈ p2, dayOf v.date ≠ dayOf d) →
      resolveDay doc m d = resolveDay { doc with unavailability := [u] } m d) := by
  constructor
  · intro p1 s1 r hav hrm hp1
    have hr : doc.availability.find? (fun a => a.day == weekdayName (dayOf d))
        = some r := by
      rw [hav]
      refine find?_first _ p1 s1 r ?_ ?_
      · rw [beq_iff_eq]
        exact hrm
      · intro a ha
        rw [beq_eq_false_iff_ne]
        exact hp1 a ha
    have hone : ([r] : List WeeklyRule).find?
        (fun a => a.day == weekdayName (dayOf d)) = some r :=
      List.find?_cons_of_pos _ (by rw [beq_iff_eq]; exact hrm)
    simp only [resolveDay, hr, hone]
  · intro p2 s2 u hun hum hp2
    have hu : doc.unavailability.find? (fun v => dayOf v.date == dayOf d)
        = some u := by
      rw [hun]
      refine find?_first _ p2 s2 u ?_ ?_
      · rw [beq_iff_eq]
        exact hum
      · intro v hv
        rw [beq_eq_false_iff_ne]
        exact hp2 v hv
    have hone : ([u] : List UnavailEntry).find?
        (fun v => dayOf v.date == dayOf d) = some u :=
      List.find?_cons_of_pos _ (by rw [beq_iff_eq]; exact hum)
    simp only [resolveDay, hu, hone]

/-- Witness duplicate Monday rule, shadowed by the first one. -/
def wRuleDup : WeeklyRule := { day := "monday", slots := [wBase2] }

/-- Witness duplicate exception for 2024-06-10, shadowed by the first. -/
def wExcDup : UnavailEntry := { date := wT, slots := [wBase], reason := "dup" }

/-- Witness doctor with two Monday rules and no unavailability entry. -/
def wDoc4 : Doctor :=
  { id := 4, name := "Di",
    availability := [wRule, wRuleDup], unavailability := [] }

/-- Witness doctor with two exceptions for 2024-06-10 and no weekly rule. -/
def wDoc5 : Doctor :=
  { id := 5, name := "Ed",
    availability := [], unavailability := [wExc, wExcDup] }

/-- Witness for C9, one concrete instance per disjunct: a doctor with
duplicate Monday rules and no exception resolves 2024-06-10 as if only the
first rule were stored, and a doctor with duplicate 2024-06-10 exceptions
and no rule resolves it as if only the first exception were stored. -/
theorem claim_C9_witness :
    (wDoc4.availability = [] ++ wRule :: [wRuleDup]
      ∧ wRule.day = weekdayName (dayOf wT)
      ∧ (∀ a ∈ ([] : List WeeklyRule), a.day ≠ weekdayName (dayOf wT))
      ∧ resolveDay wDoc4 false wT
          = resolveDay { wDoc4 with availability := [wRule] } false wT)
    ∧ (wDoc5.unavailability = [] ++ wExc :: [wExcDup]
      ∧ dayOf wExc.date = dayOf wT
      ∧ (∀ v ∈ ([] : List UnavailEntry), dayOf v.date ≠ dayOf wT)
      ∧ resolveDay wDoc5 false wT
          = resolveDay { wDoc5 with unavailability := [wExc] } false wT) :=
  ⟨⟨by decide, by decide, by decide,
      (claim_C9_first_match_wins wDoc4 false wT).1 [] [wRuleDup] wRule
        (by decide) (by decide) (by decide)⟩,
    ⟨by decide, by decide, by decide,
      (claim_C9_first_match_wins wDoc5 false wT).2 [] [wExcDup] wExc
        (by decide) (by decide) (by decide)⟩⟩

/-- Filtering twice with the same predicate equals filtering once. -/
theorem filter_idem {α : Type} (p : α → Bool) (l : List α) :
    (l.filter p).filter p = l.filter p := by
  rw [List.filter_filter]
  exact List.filter_congr (fun a _ => Bool.and_self (p a))

/-- C10: replaceWeeklyAvailability touches only the availability field;
addUnavailability and removeUnavailability leave the availability field
untouched and keep every unavailability entry whose normalized date differs
from the request's date present, unchanged and in the same relative order
(stated as equality of the sublists of other-dated entries). -/
theorem claim_C10_frame
    (doc : Doctor) (rules : List WeeklyRule) (ds : String) (sl : List Slot)
    (rsn : String) (t : Nat) (hp : parseDate ds = some t) :
    (updateAvailability doc rules).unavailability = doc.unavailability
    ∧ (addUnavailabilityPost doc (some ds) (some sl) rsn).availability
        = doc.availability
    ∧ (addUnavailabilityPost doc (some ds) (some sl) rsn).unavailability.filter
        (fun u => !(dayOf u.date == dayOf t))
        = doc.unavailability.filter (fun u => !(dayOf u.date == dayOf t))
    ∧ (removeUnavailabilityPost doc (some ds)).availability = doc.availability
    ∧ (removeUnavailabilityPost doc (some ds)).unavailability.filter
        (fun u => !(dayOf u.date == dayOf t))
        = doc.unavailability.filter (fun u => !(dayOf u.date == dayOf t)) := by
  have hrem : removeUnavailabilityPost doc (some ds)
      = { doc with unavailability :=
            doc.unavailability.filter (fun u => !(dayOf u.date == dayOf t)) } := by
    unfold removeUnavailabilityPost removeUnavailability
    rw [jsFalsy_of_parse ds t hp]
    simp [hp]
  have hupsert_filter : ∀ (sl' : List Slot) (r' : String),
      (upsertEntry doc t sl' r').unavailability.filter
          (fun u => !(dayOf u.date == dayOf t))
        = doc.unavailability.filter (fun u => !(dayOf u.date == dayOf t)) := by
    intro sl' r'
    unfold upsertEntry
    rw [List.filter_append, filter_idem]
    have hone : ([{ date := t, slots := sl', reason := r' }] : List UnavailEntry).filter
        (fun u => !(dayOf u.date == dayOf t)) = [] := by
      simp [List.filter]
    rw [hone, List.append_nil]
  have hadd : (addUnavailabilityPost doc (some ds) (some sl) rsn).availability
        = doc.availability
      ∧ (addUnavailabilityPost doc (some ds) (some sl) rsn).unavailability.filter
          (fun u => !(dayOf u.date == dayOf t))
          = doc.unavailability.filter (fun u => !(dayOf u.date == dayOf t)) := by
    cases sl with
    | nil =>
      obtain ⟨msg, hm⟩ := (addUnavailability_validation_iff doc (some ds)
        (some []) rsn).mpr (Or.inr (Or.inr rfl))
      unfold addUnavailabilityPost
      rw [hm]
      exact ⟨rfl, rfl⟩
    | cons a as =>
      unfold addUnavailabilityPost
      rw [addUnavailability_ok doc ds (a :: as) rsn t hp (by simp)]
      exact ⟨rfl, hupsert_filter (a :: as) rsn⟩
  refine ⟨rfl, hadd.1, hadd.2, ?_, ?_⟩
  · rw [hrem]
  · rw [hrem]
    exact filter_idem _ _

/-- Witness for C10 at the concrete doctor and date 2024-06-10. -/
theorem claim_C10_witness :
    parseDate "2024-06-10" = some wT
    ∧ ((updateAvailability wDoc []).unavailability = wDoc.unavailability
      ∧ (addUnavailabilityPost wDoc (some "2024-06-10") (some [wBase]) "r").availability
          = wDoc.availability
      ∧ (addUnavailabilityPost wDoc (some "2024-06-10")
            (some [wBase]) "r").unavailability.filter
          (fun u => !(dayOf u.date == dayOf wT))
          = wDoc.unavailability.filter (fun u => !(dayOf u.date == dayOf wT))
      ∧ (removeUnavailabilityPost wDoc (some "2024-06-10")).availability
          = wDoc.availability
      ∧ (removeUnavailabilityPost wDoc (some "2024-06-10")).unavailability.filter
          (fun u => !(dayOf u.date == dayOf wT))
          = wDoc.unavailability.filter (fun u => !(dayOf u.date == dayOf wT))) :=
  ⟨by decide, claim_C10_frame wDoc [] "2024-06-10" [wBase] "r" wT (by decide)⟩
